import Mathlib

/-
Verification of the flexible JSON recovery pipeline in `flexible_parser.py`
(classes `FlexibleJSONParser` and `N8nFlashcardParser`).

Shallow embedding conventions:
  * Python values produced by `json.loads` are modelled by `PyVal`; the JSON
    value `null` decodes to `PyVal.none`, exactly as `json.loads` returns the
    Python object `None`, so the source's `result is not None` tests translate
    to a `PyVal.none` comparison.
  * `json.loads` from the standard library is modelled by `pyLoads` below:
    strict JSON with objects (insertion-ordered, last-duplicate-wins),
    arrays, strings with the standard escapes, `true` / `false` / `null`, and
    an integer-only numeric grammar (no input considered in this development
    contains fractions or exponents, and surrogate-pair combining for
    `\uXXXX` escapes is not modelled).
  * Exceptions are modelled by `Except PyErr`.  The method
    `_parse_with_deep_unescape` calls `self._is_valid_json`, which is not
    defined anywhere in the repository; in Python evaluating that call raises
    `AttributeError`, modelled here by `PyErr.attrError`.
  * The regex operations of the source are implemented as direct scanners
    with the same match semantics (leftmost, non-overlapping, with the
    greedy or lazy group behaviour the concrete patterns exhibit); each
    scanner is documented with the pattern it implements.
  * Mutable instance state (`last_strategy_used`, `parsing_attempts`) is
    modelled by explicit state passing of `ParserState`.
  * All character-level text in string literals writes `{` and `}` as
    `\x7b` / `\x7d` and apostrophes as `\x27`.
-/

/-- Python values as returned by `json.loads` (plus `None`). -/
inductive PyVal where
  | none
  | bool (b : Bool)
  | int (n : Int)
  | str (s : String)
  | list (xs : List PyVal)
  | dict (kvs : List (String × PyVal))
deriving Repr

/-- Exceptions that the embedded code can raise. -/
inductive PyErr where
  | jsonDecode (msg : String)
  | attrError
  | typeError
deriving Repr, DecidableEq

/-- Model of Python's `str(e)` on the exceptions above (decode messages are
modelled by short tags in place of CPython's position-annotated text). -/
def renderErr : PyErr → String
  | .jsonDecode m => m
  | .attrError => "\x27FlexibleJSONParser\x27 object has no attribute \x27_is_valid_json\x27"
  | .typeError => "expected string or bytes-like object"

/-- Instance state of `FlexibleJSONParser` (`__init__`, lines 23-25). -/
structure ParserState where
  last_strategy_used : Option String
  parsing_attempts : List String
deriving Repr

/-- State set up by `FlexibleJSONParser.__init__`. -/
def initState : ParserState := ⟨Option.none, []⟩

/-- Python truthiness for the values a strategy can produce. -/
def pyTruthy : PyVal → Bool
  | .none => false
  | .bool b => b
  | .int n => n != 0
  | .str s => s != ""
  | .list xs => !xs.isEmpty
  | .dict kvs => !kvs.isEmpty

/-- The `result is not None` test of `parse`. -/
def pyIsNone : PyVal → Bool
  | .none => true
  | _ => false

/-- Key lookup on a Python dict. -/
def pyDictGet : List (String × PyVal) → String → Option PyVal
  | [], _ => Option.none
  | (k1, v1) :: rest, k => if k1 == k then some v1 else pyDictGet rest k

/-- Python's `d.get(k, default)`. -/
def pyDictGetD (kvs : List (String × PyVal)) (k : String) (d : PyVal) : PyVal :=
  (pyDictGet kvs k).getD d

/-- Insertion into a Python dict: an existing key keeps its position and
receives the new value, a new key is appended. -/
def pyDictInsert : List (String × PyVal) → String → PyVal → List (String × PyVal)
  | [], k, v => [(k, v)]
  | (k1, v1) :: rest, k, v =>
    if k1 == k then (k1, v) :: rest else (k1, v1) :: pyDictInsert rest k v

/-- Whitespace stripped by Python's `str.strip()` and matched by `\s` in the
source's regexes (ASCII subset). -/
def wsChar (c : Char) : Bool :=
  c == ' ' || c == '\t' || c == '\n' || c == '\r' || c == '\x0b' || c == '\x0c'

/-- Python's `str.strip()` on a character list. -/
def pyStrip (l : List Char) : List Char :=
  ((l.dropWhile wsChar).reverse.dropWhile wsChar).reverse

/-- Python's `str.strip()` on a string. -/
def pyStripS (s : String) : String := String.mk (pyStrip s.data)

/-- Python's substring test `pat in hay`. -/
def containsSub : List Char → List Char → Bool
  | hay, pat =>
    match hay with
    | [] => pat.isEmpty
    | _ :: t => pat.isPrefixOf hay || containsSub t pat

/-- Python's `str.replace(old, new)`: leftmost, non-overlapping, for a
non-empty `old` (fuelled by the haystack length). -/
def pyReplaceF : Nat → List Char → List Char → List Char → List Char
  | 0, s, _, _ => s
  | fuel+1, s, old, new =>
    match s with
    | [] => []
    | c :: rest =>
      if !old.isEmpty && old.isPrefixOf s then
        new ++ pyReplaceF fuel (s.drop old.length) old new
      else
        c :: pyReplaceF fuel rest old new

/-- Python's `str.replace(old, new)`. -/
def pyReplace (s old new : List Char) : List Char := pyReplaceF s.length s old new

/-- The backslash character. -/
def bsC : Char := '\x5c'

/-- The double-quote character. -/
def qtC : Char := '\x22'

/-- JSON whitespace accepted between tokens by `json.loads`. -/
def jsonWs (c : Char) : Bool := c == ' ' || c == '\t' || c == '\n' || c == '\r'

/-- Skip JSON inter-token whitespace. -/
def skipJsonWs (s : List Char) : List Char := s.dropWhile jsonWs

/-- Hexadecimal digit value, for `\uXXXX` string escapes (by code point:
48-57 are the digits, 97-102 and 65-70 the lower- and upper-case letters). -/
def hexVal (c : Char) : Option Nat :=
  let n := c.toNat
  if 48 ≤ n ∧ n ≤ 57 then some (n - 48)
  else if 97 ≤ n ∧ n ≤ 102 then some (n - 87)
  else if 65 ≤ n ∧ n ≤ 70 then some (n - 55)
  else Option.none

/-- Body of a JSON string literal after the opening quote: standard escapes,
unescaped control characters rejected (strict mode). -/
def parseJStr : Nat → List Char → List Char → Except PyErr (String × List Char)
  | 0, _, _ => .error (.jsonDecode "Unterminated string")
  | fuel+1, acc, s =>
    match s with
    | [] => .error (.jsonDecode "Unterminated string")
    | c :: rest =>
      if c == qtC then .ok (String.mk acc.reverse, rest)
      else if c == bsC then
        match rest with
        | [] => .error (.jsonDecode "Unterminated string")
        | e :: rest2 =>
          if e == qtC then parseJStr fuel (qtC :: acc) rest2
          else if e == bsC then parseJStr fuel (bsC :: acc) rest2
          else if e == '/' then parseJStr fuel ('/' :: acc) rest2
          else if e == 'b' then parseJStr fuel ('\x08' :: acc) rest2
          else if e == 'f' then parseJStr fuel ('\x0c' :: acc) rest2
          else if e == 'n' then parseJStr fuel ('\n' :: acc) rest2
          else if e == 'r' then parseJStr fuel ('\r' :: acc) rest2
          else if e == 't' then parseJStr fuel ('\t' :: acc) rest2
          else if e == 'u' then
            match rest2 with
            | h1 :: h2 :: h3 :: h4 :: rest3 =>
              match hexVal h1, hexVal h2, hexVal h3, hexVal h4 with
              | some a, some b, some c2, some d =>
                parseJStr fuel (Char.ofNat (((a * 16 + b) * 16 + c2) * 16 + d) :: acc) rest3
              | _, _, _, _ => .error (.jsonDecode "Invalid hex escape")
            | _ => .error (.jsonDecode "Invalid hex escape")
          else .error (.jsonDecode "Invalid escape")
      else if c.toNat < 32 then .error (.jsonDecode "Invalid control character")
      else parseJStr fuel (c :: acc) rest

/-- Integer literal after an optional minus sign: `0` stops immediately
(JSON permits no leading zeros), otherwise a maximal digit run. -/
def parseJInt (s : List Char) : Except PyErr (Int × List Char) :=
  match s with
  | [] => .error (.jsonDecode "Expecting value")
  | d :: rest =>
    if !d.isDigit then .error (.jsonDecode "Expecting value")
    else if d == '0' then .ok (0, rest)
    else
      .ok (Int.ofNat ((s.takeWhile Char.isDigit).foldl
            (fun acc c => 10 * acc + (c.toNat - 48)) 0),
           s.dropWhile Char.isDigit)

mutual

/-- One JSON value, `json.loads` grammar (see the header note on numerics). -/
def parseVal : Nat → List Char → Except PyErr (PyVal × List Char)
  | 0, _ => .error (.jsonDecode "Expecting value")
  | fuel+1, s0 =>
    match skipJsonWs s0 with
    | [] => .error (.jsonDecode "Expecting value")
    | c :: rest =>
      if c == qtC then
        match parseJStr (rest.length + 1) [] rest with
        | .error e => .error e
        | .ok (str, r) => .ok (.str str, r)
      else if c == '\x7b' then parseObj fuel rest
      else if c == '[' then parseArr fuel rest
      else if c == 't' then
        if ("rue".data).isPrefixOf rest then .ok (.bool true, rest.drop 3)
        else .error (.jsonDecode "Expecting value")
      else if c == 'f' then
        if ("alse".data).isPrefixOf rest then .ok (.bool false, rest.drop 4)
        else .error (.jsonDecode "Expecting value")
      else if c == 'n' then
        if ("ull".data).isPrefixOf rest then .ok (.none, rest.drop 3)
        else .error (.jsonDecode "Expecting value")
      else if c == '-' then
        match parseJInt rest with
        | .error e => .error e
        | .ok (n, r) => .ok (.int (-n), r)
      else if c.isDigit then
        match parseJInt (c :: rest) with
        | .error e => .error e
        | .ok (n, r) => .ok (.int n, r)
      else .error (.jsonDecode "Expecting value")

/-- Array body after `[`. -/
def parseArr : Nat → List Char → Except PyErr (PyVal × List Char)
  | 0, _ => .error (.jsonDecode "Expecting value")
  | fuel+1, s =>
    match skipJsonWs s with
    | ']' :: rest => .ok (.list [], rest)
    | other => parseArrElems fuel other []

/-- Array elements, after at least one element is required. -/
def parseArrElems : Nat → List Char → List PyVal → Except PyErr (PyVal × List Char)
  | 0, _, _ => .error (.jsonDecode "Expecting value")
  | fuel+1, s, acc =>
    match parseVal fuel s with
    | .error e => .error e
    | .ok (v, r) =>
      match skipJsonWs r with
      | ',' :: rest => parseArrElems fuel rest (v :: acc)
      | ']' :: rest => .ok (.list (v :: acc).reverse, rest)
      | _ => .error (.jsonDecode "Expecting delimiter")

/-- Object body after an opening brace. -/
def parseObj : Nat → List Char → Except PyErr (PyVal × List Char)
  | 0, _ => .error (.jsonDecode "Expecting value")
  | fuel+1, s =>
    match skipJsonWs s with
    | '\x7d' :: rest => .ok (.dict [], rest)
    | other => parseObjElems fuel other []

/-- Object members, after at least one member is required. -/
def parseObjElems : Nat → List Char → List (String × PyVal) →
    Except PyErr (PyVal × List Char)
  | 0, _, _ => .error (.jsonDecode "Expecting value")
  | fuel+1, s, acc =>
    match skipJsonWs s with
    | c :: rest =>
      if c == qtC then
        match parseJStr (rest.length + 1) [] rest with
        | .error e => .error e
        | .ok (key, r1) =>
          match skipJsonWs r1 with
          | ':' :: r2 =>
            match parseVal fuel r2 with
            | .error e => .error e
            | .ok (v, r3) =>
              match skipJsonWs r3 with
              | ',' :: rest2 => parseObjElems fuel rest2 (pyDictInsert acc key v)
              | '\x7d' :: rest2 => .ok (.dict (pyDictInsert acc key v), rest2)
              | _ => .error (.jsonDecode "Expecting delimiter")
          | _ => .error (.jsonDecode "Expecting colon delimiter")
      else .error (.jsonDecode "Expecting property name enclosed in double quotes")
    | [] => .error (.jsonDecode "Expecting property name enclosed in double quotes")

end

/-- Model of `json.loads` on a character list: one value, then only
whitespace may remain. -/
def pyLoadsL (s : List Char) : Except PyErr PyVal :=
  match parseVal (2 * s.length + 4) s with
  | .error e => .error e
  | .ok (v, rest) => if (skipJsonWs rest).isEmpty then .ok v else .error (.jsonDecode "Extra data")

/-- Model of `json.loads` on a string. -/
def pyLoads (s : String) : Except PyErr PyVal := pyLoadsL s.data

/-- Scanner for `re.sub(r'(\\\\+)"', ...)` at line 137 of the source: each
maximal run of `n ≥ 2` backslashes immediately followed by a quote is
replaced, per the lambda, by `n - 1` backslashes and the quote
(`m.group(1)[:-2] + '\\"'` when `n > 2`, `'\\"'` when `n = 2`). -/
def redBsQ : Nat → List Char → List Char
  | 0, s => s
  | fuel+1, s =>
    match s with
    | [] => []
    | c :: rest =>
      if c == bsC then
        let n := (s.takeWhile (· == bsC)).length
        match s.drop n with
        | q :: tail =>
          if n ≥ 2 && q == qtC then
            List.replicate (n - 1) bsC ++ qtC :: redBsQ fuel tail
          else c :: redBsQ fuel rest
        | [] => c :: redBsQ fuel rest
      else c :: redBsQ fuel rest

/-- Loop body and iteration bookkeeping of `_parse_with_deep_unescape`
(lines 127-156).  Returns the iteration count together with either the final
content or the exception the body raises.  The branch at line 138 evaluates
`self._is_valid_json(content)`, an attribute the class does not define, so
reaching it raises `AttributeError`. -/
def duLoop : Nat → Nat → List Char → Nat × Except PyErr (List Char)
  | 0, it, content => (it, .ok content)
  | fuel+1, it, content =>
    if !containsSub content [bsC, bsC] && !containsSub content [bsC, qtC] then
      (it, .ok content)
    else if !containsSub content [bsC, bsC, qtC] && containsSub content [bsC, qtC] then
      (it, .error .attrError)
    else
      let c1 := if containsSub content [bsC, bsC, qtC] then redBsQ content.length content
                else content
      let c2 := pyReplace c1 [bsC, bsC, 'n'] [bsC, 'n']
      let c3 := pyReplace c2 [bsC, bsC, 't'] [bsC, 't']
      let c4 := pyReplace c3 [bsC, bsC, 'r'] [bsC, 'r']
      let c5 := pyReplace c4 [bsC, bsC, bsC, bsC] [bsC, bsC]
      if c5 == content then (it, .ok c5)
      else duLoop fuel (it + 1) c5

/-- State of a candidate block match for the pattern
`(\{(?:[^{}]|(?:\{[^{}]*\}))*\}|\[(?:[^\[\]]|(?:\[[^\[\]]*\])) *\])` used at
lines 165 and 364: from an opening bracket, the match ends at the first
return to depth 0 and is valid only if the nesting depth never exceeds 2. -/
def scanBlock (openC closeC : Char) : Nat → List Char → List Char → Nat →
    Option (List Char × List Char)
  | 0, _, _, _ => Option.none
  | _+1, _, [], _ => Option.none
  | fuel+1, acc, c :: rest, depth =>
    if c == openC then
      if depth == 2 then Option.none
      else scanBlock openC closeC fuel (c :: acc) rest (depth + 1)
    else if c == closeC then
      if depth == 1 then some ((c :: acc).reverse, rest)
      else if depth == 0 then Option.none
      else scanBlock openC closeC fuel (c :: acc) rest (depth - 1)
    else scanBlock openC closeC fuel (c :: acc) rest depth

/-- `re.findall` with the balanced-block pattern above: leftmost,
non-overlapping, advancing one character when no block starts here. -/
def fjbAux : Nat → List Char → List (List Char)
  | 0, _ => []
  | _+1, [] => []
  | fuel+1, s =>
    match s with
    | c :: rest =>
      if c == '\x7b' then
        match scanBlock '\x7b' '\x7d' s.length [] s 0 with
        | some (blk, after) => blk :: fjbAux fuel after
        | Option.none => fjbAux fuel rest
      else if c == '[' then
        match scanBlock '[' ']' s.length [] s 0 with
        | some (blk, after) => blk :: fjbAux fuel after
        | Option.none => fjbAux fuel rest
      else fjbAux fuel rest
    | [] => []

/-- All balanced-bracket substrings as found by the source's regex. -/
def findJsonBlocks (s : List Char) : List (List Char) := fjbAux s.length s

/-- First occurrence split: `some (before, after)` when `pat` occurs in `s`,
with `before` the text preceding the occurrence and `after` the text
following it. -/
def splitAtSub : Nat → List Char → List Char → Option (List Char × List Char)
  | 0, _, _ => Option.none
  | fuel+1, s, pat =>
    if pat.isPrefixOf s then some ([], s.drop pat.length)
    else
      match s with
      | [] => Option.none
      | c :: rest =>
        match splitAtSub fuel rest pat with
        | some (pre, post) => some (c :: pre, post)
        | Option.none => Option.none

/-- `re.findall(r'```json\s*(.*?)\s*```', text, re.DOTALL)` (line 229): each
` ```json ` opener captures, lazily, the text up to the next ` ``` `, with
surrounding whitespace absorbed by the greedy `\s*`s. -/
def fjfAux : Nat → List Char → List (List Char)
  | 0, _ => []
  | _+1, [] => []
  | fuel+1, s =>
    match s with
    | _ :: rest =>
      if ("```json".data).isPrefixOf s then
        let body := s.drop 7
        match splitAtSub body.length body "```".data with
        | some (pre, post) => pyStrip pre :: fjfAux fuel post
        | Option.none => []
      else fjfAux fuel rest
    | [] => []

/-- Markdown JSON fences of the n8n extractor. -/
def findJsonFences (s : List Char) : List (List Char) := fjfAux s.length s

/-- `re.findall(r'```(?:json)?\s*(.*?)\s*```', text, re.DOTALL)` (line 379):
like `findJsonFences` but the `json` tag is optional. -/
def ffoAux : Nat → List Char → List (List Char)
  | 0, _ => []
  | _+1, [] => []
  | fuel+1, s =>
    match s with
    | _ :: rest =>
      if ("```".data).isPrefixOf s then
        let b0 := s.drop 3
        let b1 := if ("json".data).isPrefixOf b0 then b0.drop 4 else b0
        match splitAtSub b1.length b1 "```".data with
        | some (pre, post) => pyStrip pre :: ffoAux fuel post
        | Option.none => []
      else ffoAux fuel rest
    | [] => []

/-- Code blocks with optional `json` tag, for `_parse_with_extraction`. -/
def findCodeBlocks (s : List Char) : List (List Char) := ffoAux s.length s


/-- Fallback of `_parse_with_deep_unescape` (lines 164-183): decode each
balanced block, returning the first that is a dict with a `cards` key or a
non-empty list of dicts (wrapped as `{'cards': ...}`); otherwise `None`. -/
def duFallback : List (List Char) → PyVal
  | [] => .none
  | b :: rest =>
    match pyLoadsL b with
    | .error _ => duFallback rest
    | .ok v =>
      match v with
      | .dict kvs =>
        if (pyDictGet kvs "cards").isSome then .dict kvs else duFallback rest
      | .list xs =>
        if !xs.isEmpty && xs.all (fun x => match x with | .dict _ => true | _ => false) then
          .dict [("cards", .list xs)]
        else duFallback rest
      | _ => duFallback rest

/-- `FlexibleJSONParser._parse_with_deep_unescape` on a character list:
strip, run the bounded unescape loop, decode, and fall back to the balanced
block scan on decode failure.  An exception raised by the loop propagates. -/
def deep_unescape_list (l : List Char) : Except PyErr PyVal :=
  match duLoop 10 0 (pyStrip l) with
  | (_, .error e) => .error e
  | (_, .ok content) =>
    match pyLoadsL content with
    | .ok v => .ok v
    | .error _ => .ok (duFallback (findJsonBlocks content))

/-- `FlexibleJSONParser._parse_with_deep_unescape` (lines 115-183). -/
def parse_with_deep_unescape (raw_input : String) : Except PyErr PyVal :=
  deep_unescape_list raw_input.data

/-- Iteration count of the deep-unescape loop on a given input, as reached
when the loop stops or raises. -/
def deep_unescape_iterations (raw_input : String) : Nat :=
  (duLoop 10 0 (pyStrip raw_input.data)).1

/-- `FlexibleJSONParser._parse_standard` (lines 110-113). -/
def parse_standard (raw_input : String) : Except PyErr PyVal :=
  pyLoads (pyStripS raw_input)

/-- The wrapper-key fingerprint `'"output"'` used by `_looks_like_n8n`. -/
def outputKey : List Char := "\"output\"".data

/-- `FlexibleJSONParser._looks_like_n8n` (lines 185-195). -/
def looks_like_n8n (raw_input : String) : Bool :=
  containsSub raw_input.data outputKey ||
  (("[\x7b".data).isPrefixOf (pyStrip raw_input.data) &&
    containsSub ((pyStrip raw_input.data).take 100) outputKey)

/-- Escape-level reduction attempted by `_parse_n8n_format` on a fence body
whose strict and deep-unescape decodes both failed (lines 247-273): reduce
`\\"` to `\"`, unescape `\n` / `\t` / `\r`, and halve doubled backslashes
not followed by a quote. -/
def subDoubleBsNotQuote : Nat → List Char → List Char
  | 0, s => s
  | _+1, [] => []
  | _+1, [c] => [c]
  | fuel+1, c1 :: c2 :: rest =>
    if c1 == bsC && c2 == bsC && rest.head? != some qtC then
      bsC :: subDoubleBsNotQuote fuel rest
    else c1 :: subDoubleBsNotQuote fuel (c2 :: rest)

/-- The `fixed_json` computation of `_parse_n8n_format` (lines 247-270). -/
def n8nFixedJson (json_str : List Char) : List Char :=
  let f := json_str
  let f := if containsSub f [bsC, bsC, qtC] then pyReplace f [bsC, bsC, qtC] [bsC, qtC] else f
  let f := pyReplace f [bsC, 'n'] ['\n']
  let f := pyReplace f [bsC, 't'] ['\t']
  let f := pyReplace f [bsC, 'r'] ['\r']
  subDoubleBsNotQuote f.length f

/-- Per-fence-body handling of `_parse_n8n_format` (lines 231-282): strict
decode; on failure the deep-unescape resolver (which records an attempt and
whose exceptions are swallowed by `except Exception`), then the
escape-reduction retry; an unrecoverable body yields `none` (block
skipped). -/
def n8nHandleBlock (b : List Char) : List String × Option PyVal :=
  match pyLoadsL b with
  | .ok v => ([], some v)
  | .error _ =>
    match deep_unescape_list b with
    | .error _ => (["deep_unescape"], Option.none)
    | .ok v =>
      if pyTruthy v then (["deep_unescape"], some v)
      else
        match pyLoadsL (n8nFixedJson b) with
        | .ok v2 => (["deep_unescape"], some v2)
        | .error _ => (["deep_unescape"], Option.none)

/-- Card extraction from a decoded fence body (lines 285-303): a dict with a
`cards` list contributes that list (a non-list `cards` is skipped with a
warning), a bare list contributes its items, anything else is a single
card. -/
def cardsOf (inner : PyVal) : List PyVal :=
  match inner with
  | .dict kvs =>
    match pyDictGet kvs "cards" with
    | some (.list cs) => cs
    | some _ => []
    | Option.none => [.dict kvs]
  | .list xs => xs
  | v => [v]

/-- Fence bodies of one wrapper in order: recorded attempts and accumulated
cards. -/
def processBlocks : List (List Char) → List String × List PyVal
  | [] => ([], [])
  | b :: rest =>
    let (atts, innerOpt) := n8nHandleBlock b
    let (ratts, rcards) := processBlocks rest
    match innerOpt with
    | Option.none => (atts ++ ratts, rcards)
    | some inner => (atts ++ ratts, cardsOf inner ++ rcards)

/-- One wrapper object of the outer array (lines 216-227): non-dicts are
skipped; the output string is `item.get('output', '')`, falling back to
`item.get('data', '') or item.get('result', '')`; `re.findall` on a
non-string truthy value raises `TypeError`. -/
def n8nHandleItem (item : PyVal) : Except PyErr (List String × List PyVal) :=
  match item with
  | .dict kvs =>
    let oc0 := pyDictGetD kvs "output" (.str "")
    let oc :=
      if pyTruthy oc0 then oc0
      else
        let d := pyDictGetD kvs "data" (.str "")
        if pyTruthy d then d else pyDictGetD kvs "result" (.str "")
    if pyTruthy oc then
      match oc with
      | .str s => .ok (processBlocks (findJsonFences s.data))
      | _ => .error .typeError
    else .ok ([], [])
  | _ => .ok ([], [])

/-- All wrapper objects in order, threading attempts even when a later item
raises. -/
def n8nItems : List PyVal → List String × Except PyErr (List PyVal)
  | [] => ([], .ok [])
  | item :: rest =>
    match n8nHandleItem item with
    | .error e => ([], .error e)
    | .ok (atts, cards) =>
      match n8nItems rest with
      | (ratts, .error e) => (atts ++ ratts, .error e)
      | (ratts, .ok rcards) => (atts ++ ratts, .ok (cards ++ rcards))

/-- Wrapping of a non-list outer value into a singleton list (lines
210-211). -/
def asOuterList : PyVal → List PyVal
  | .list xs => xs
  | v => [v]

/-- `FlexibleJSONParser._parse_n8n_format` (lines 197-312), returning the
strategy attempts it records alongside its result; `None` models the
"no cards found" return at line 312. -/
def parse_n8n_format (raw_input : String) : List String × Except PyErr PyVal :=
  match pyLoadsL (pyStrip raw_input.data) with
  | .error e => (["n8n_triple_layer"], .error e)
  | .ok outer =>
    match n8nItems (asOuterList outer) with
    | (atts, .error e) => ("n8n_triple_layer" :: atts, .error e)
    | (atts, .ok cards) =>
      if cards.isEmpty then ("n8n_triple_layer" :: atts, .ok .none)
      else ("n8n_triple_layer" :: atts, .ok (.dict [("cards", .list cards)]))

/-- Scanner for `re.sub(r'```json?\s*', '', s)` (line 327): the literal
` ```jso `, an optional `n`, then a greedy whitespace run, removed. -/
def subFenceJso : Nat → List Char → List Char
  | 0, s => s
  | _+1, [] => []
  | fuel+1, s =>
    match s with
    | c :: rest =>
      if ("```jso".data).isPrefixOf s then
        let b0 := s.drop 6
        let b1 := if b0.head? == some 'n' then b0.tail else b0
        subFenceJso fuel (b1.dropWhile wsChar)
      else c :: subFenceJso fuel rest
    | [] => []

/-- Scanner for `re.sub(r'\s*```', '', s)` (line 328): a whitespace run
directly followed by ` ``` `, removed. -/
def subWsFence : Nat → List Char → List Char
  | 0, s => s
  | _+1, [] => []
  | fuel+1, s =>
    match s with
    | c :: rest =>
      let wsLen := (s.takeWhile wsChar).length
      if ("```".data).isPrefixOf (s.drop wsLen) then
        subWsFence fuel (s.drop (wsLen + 3))
      else c :: subWsFence fuel rest
    | [] => []

/-- Scanner for `re.sub(r',\s*X', 'X', s)` with `X` a closing bracket
(lines 344-345): a comma, optional whitespace, and the bracket collapse to
the bracket. -/
def subCommaClose (close : Char) : Nat → List Char → List Char
  | 0, s => s
  | _+1, [] => []
  | fuel+1, c :: rest =>
    if c == ',' then
      match rest.dropWhile wsChar with
      | d :: rest2 =>
        if d == close then close :: subCommaClose close fuel rest2
        else c :: subCommaClose close fuel rest
      | [] => c :: subCommaClose close fuel rest
    else c :: subCommaClose close fuel rest

/-- One step of the known-prefix removal loop of `_clean_json_string`
(lines 331-341): when the stripped text starts with the prefix, the source
slices `len(prefix)` characters off the UNstripped text and strips. -/
def stripOnePfx (l : List Char) (p : List Char) : List Char :=
  if p.isPrefixOf (pyStrip l) then pyStrip (l.drop p.length) else l

/-- The LLM preamble prefixes of `_clean_json_string`, in source order. -/
def llmPrefixes : List (List Char) :=
  ["Here is the JSON:".data, "Here\x27s the result:".data, "The JSON output is:".data,
   "JSON:".data, "Output:".data, "Result:".data]

/-- Last index of a character (Python `str.rfind`, `-1` becomes `none`). -/
def rfindPos : List Char → Char → Nat → Option Nat → Option Nat
  | [], _, _, best => best
  | x :: rest, c, i, best => rfindPos rest c (i + 1) (if x == c then some i else best)

/-- Trailing-text removal of `_clean_json_string` (lines 347-354): truncate
after the last closing bracket when non-bracket text follows it. -/
def dropTrailingText (l : List Char) : List Char :=
  let pb := rfindPos l '\x7d' 0 Option.none
  let pk := rfindPos l ']' 0 Option.none
  let lastClose : Int :=
    max (match pb with | some n => (n : Int) | Option.none => -1)
        (match pk with | some n => (n : Int) | Option.none => -1)
  if lastClose > 0 then
    let idx := lastClose.toNat
    let after := pyStrip (l.drop (idx + 1))
    if !after.isEmpty && !(after.head? == some '\x7d') && !(after.head? == some ']') then
      l.take (idx + 1)
    else l
  else l

/-- `FlexibleJSONParser._clean_json_string` (lines 320-356). -/
def clean_json_string (raw_string : String) : String :=
  let l := raw_string.data
  let l := match l with | '\uFEFF' :: rest => rest | other => other
  let l := subFenceJso l.length l
  let l := subWsFence l.length l
  let l := llmPrefixes.foldl stripOnePfx l
  let l := subCommaClose '\x7d' l.length l
  let l := subCommaClose ']' l.length l
  let l := dropTrailingText l
  String.mk (pyStrip l)

/-- `FlexibleJSONParser._parse_with_cleanup` (lines 314-318). -/
def parse_with_cleanup (raw_input : String) : Except PyErr PyVal :=
  pyLoads (clean_json_string raw_input)

/-- Stable insertion into a length-descending list (Python's stable
`sort(key=len, reverse=True)`). -/
def insDesc (x : List Char) : List (List Char) → List (List Char)
  | [] => [x]
  | y :: rest => if x.length < y.length then y :: insDesc x rest else x :: y :: rest

/-- Stable descending sort by length (line 369). -/
def sortByLenDesc : List (List Char) → List (List Char)
  | [] => []
  | x :: rest => insDesc x (sortByLenDesc rest)

/-- First decodable candidate, returned whatever its value (lines 371-376
and 380-385 return `result` unconditionally on decode success). -/
def firstParsed : List (List Char) → Option PyVal
  | [] => Option.none
  | b :: rest =>
    match pyLoadsL b with
    | .ok v => some v
    | .error _ => firstParsed rest

/-- `FlexibleJSONParser._parse_with_extraction` (lines 358-387). -/
def parse_with_extraction (raw_input : String) : Except PyErr PyVal :=
  match firstParsed (sortByLenDesc (findJsonBlocks raw_input.data)) with
  | some v => .ok v
  | Option.none =>
    match firstParsed (findCodeBlocks raw_input.data) with
    | some v => .ok v
    | Option.none => .ok .none

/-- Word characters of the source's `\w` (ASCII model). -/
def wordChar (c : Char) : Bool := c.isAlpha || c.isDigit || c == '_'

/-- Scanner for `re.sub(r'(\w+):', r'"\1":', s)` (line 400): a maximal word
run directly followed by a colon gets double-quoted. -/
def subQuoteKeys : Nat → List Char → List Char
  | 0, s => s
  | _+1, [] => []
  | fuel+1, s =>
    match s with
    | c :: rest =>
      if wordChar c then
        let run := s.takeWhile wordChar
        match s.drop run.length with
        | ':' :: rest2 => qtC :: (run ++ qtC :: ':' :: subQuoteKeys fuel rest2)
        | other => run ++ subQuoteKeys fuel other
      else c :: subQuoteKeys fuel rest
    | [] => []

/-- One attempted match of the pattern
`"([^"]*)":\s*"([^"]*)"([^",}\]]*)"` of `_fix_unescaped_quotes` (line 416)
starting at a double quote; the replacer emits
`"key": "value_start value_end"` with quotes in `value_end` escaped (the
character class makes that replace a no-op, kept for fidelity). -/
def fuqTry (s : List Char) : Option (List Char × List Char) :=
  match s with
  | q0 :: b1 =>
    if q0 == qtC then
      let g1 := b1.takeWhile (· != qtC)
      match b1.drop g1.length with
      | q1 :: ':' :: r2 =>
        if q1 == qtC then
          match (r2.dropWhile wsChar) with
          | q2 :: r4 =>
            if q2 == qtC then
              let g2 := r4.takeWhile (· != qtC)
              match r4.drop g2.length with
              | q3 :: r6 =>
                if q3 == qtC then
                  let g3 := r6.takeWhile
                    (fun c => c != qtC && c != ',' && c != '\x7d' && c != ']')
                  match r6.drop g3.length with
                  | q4 :: r8 =>
                    if q4 == qtC then
                      some (qtC :: g1 ++ "\": \"".data ++ g2 ++
                            pyReplace g3 [qtC] [bsC, qtC] ++ [qtC], r8)
                    else Option.none
                  | [] => Option.none
                else Option.none
              | [] => Option.none
            else Option.none
          | [] => Option.none
        else Option.none
      | _ => Option.none
    else Option.none
  | [] => Option.none

/-- `FlexibleJSONParser._fix_unescaped_quotes` (lines 412-426) as a
leftmost, non-overlapping scan. -/
def fuqAux : Nat → List Char → List Char
  | 0, s => s
  | _+1, [] => []
  | fuel+1, s =>
    match s with
    | c :: rest =>
      match fuqTry s with
      | some (repl, after) => repl ++ fuqAux fuel after
      | Option.none => c :: fuqAux fuel rest
    | [] => []

/-- First pass of `_fix_single_quotes`: `re.sub(r"'(\w+)':", r'"\1":', s)`
(line 435). -/
def fsq1 : Nat → List Char → List Char
  | 0, s => s
  | _+1, [] => []
  | fuel+1, s =>
    match s with
    | c :: rest =>
      if c == '\x27' then
        let run := rest.takeWhile wordChar
        if run.isEmpty then c :: fsq1 fuel rest
        else
          match rest.drop run.length with
          | q :: ':' :: rest2 =>
            if q == '\x27' then qtC :: (run ++ qtC :: ':' :: fsq1 fuel rest2)
            else c :: fsq1 fuel rest
          | _ => c :: fsq1 fuel rest
      else c :: fsq1 fuel rest
    | [] => []

/-- Second pass of `_fix_single_quotes`:
`re.sub(r":\s*'([^']*)'", r': "\1"', s)` (line 438). -/
def fsq2 : Nat → List Char → List Char
  | 0, s => s
  | _+1, [] => []
  | fuel+1, s =>
    match s with
    | c :: rest =>
      if c == ':' then
        match rest.dropWhile wsChar with
        | a :: r2 =>
          if a == '\x27' then
            let g := r2.takeWhile (· != '\x27')
            match r2.drop g.length with
            | b :: r4 =>
              if b == '\x27' then ':' :: ' ' :: qtC :: (g ++ qtC :: fsq2 fuel r4)
              else c :: fsq2 fuel rest
            | [] => c :: fsq2 fuel rest
          else c :: fsq2 fuel rest
        | [] => c :: fsq2 fuel rest
      else c :: fsq2 fuel rest
    | [] => []

/-- `FlexibleJSONParser._fix_single_quotes` (lines 428-440). -/
def fix_single_quotes (l : List Char) : List Char := fsq2 (fsq1 l.length l).length (fsq1 l.length l)

/-- `FlexibleJSONParser._parse_with_repair` (lines 389-410): strip, fix
unescaped quotes, quote bare keys, fix single quotes, then decode, with a
decode failure returning `None`. -/
def parse_with_repair (raw_input : String) : Except PyErr PyVal :=
  let r := pyStrip raw_input.data
  let r := fuqAux r.length r
  let r := subQuoteKeys r.length r
  let r := fix_single_quotes r
  match pyLoadsL r with
  | .ok v => .ok v
  | .error _ => .ok .none

/-- One strategy entry for the orchestrator: success name, error-message
prefix, recorded attempts, and result. -/
def StratEntry : Type := String × String × List String × Except PyErr PyVal

/-- The strategy cascade of `FlexibleJSONParser.parse` (lines 47-103): each
tried strategy appends its attempts; an exception appends its rendered
message; a non-`None` value stops the cascade. -/
def runStrategies : List StratEntry → List String → List String →
    List String × List String × Option (String × PyVal)
  | [], atts, errs => (atts, errs, Option.none)
  | (name, epfx, satts, res) :: rest, atts, errs =>
    match res with
    | .ok v =>
      if pyIsNone v then runStrategies rest (atts ++ satts) errs
      else (atts ++ satts, errs, some (name, v))
    | .error e => runStrategies rest (atts ++ satts) (errs ++ [epfx ++ renderErr e])

/-- The ordered strategy list tried by `parse` for a given input: the n8n
extractor first when hinted or sniffed (line 48), then standard, deep
unescape, cleanup, extraction, and repair. -/
def stratList (raw_input : String) (source_hint : Option String) : List StratEntry :=
  (if source_hint == some "n8n" || looks_like_n8n raw_input then
     [("n8n_triple_layer", "n8n parsing: ", parse_n8n_format raw_input)]
   else []) ++
  [("standard", "Standard parsing: ", ["standard"], parse_standard raw_input),
   ("deep_unescape", "Deep unescape parsing: ", ["deep_unescape"], parse_with_deep_unescape raw_input),
   ("cleanup", "Cleanup parsing: ", ["cleanup"], parse_with_cleanup raw_input),
   ("extraction", "Extraction parsing: ", ["extraction"], parse_with_extraction raw_input),
   ("repair", "Repair parsing: ", ["repair"], parse_with_repair raw_input)]

/-- `FlexibleJSONParser.parse` (lines 27-108) with the instance state passed
explicitly: `parsing_attempts` is reset at entry (line 41), a success stores
the winning strategy in `last_strategy_used` and returns the value, and
total failure raises `ValueError` with the joined per-strategy messages
(lines 105-108). -/
def parse (st : ParserState) (raw_input : String) (source_hint : Option String) :
    ParserState × Except String PyVal :=
  match runStrategies (stratList raw_input source_hint) [] [] with
  | (atts, _, some (name, v)) =>
    ({ st with last_strategy_used := some name, parsing_attempts := atts }, .ok v)
  | (atts, errs, Option.none) =>
    ({ st with parsing_attempts := atts },
     .error ("Failed to parse JSON. Errors: " ++ String.intercalate "; " errs))

/-- First alias key whose value is a list, for the nested-structure loop of
`_normalize_flashcard_structure` (lines 496-499). -/
def findListAlias (kvs : List (String × PyVal)) : List String → Option (List PyVal)
  | [] => Option.none
  | k :: rest =>
    match pyDictGet kvs k with
    | some (.list l) => some l
    | _ => findListAlias kvs rest

/-- Membership of any of the single-card alias keys (line 492). -/
def hasAnyKey (kvs : List (String × PyVal)) (ks : List String) : Bool :=
  ks.any (fun k => (pyDictGet kvs k).isSome)

/-- `N8nFlashcardParser._normalize_flashcard_structure` (lines 479-503). -/
def normalize_flashcard_structure (data : PyVal) : PyVal :=
  match data with
  | .dict kvs =>
    if (pyDictGet kvs "cards").isSome then .dict kvs
    else if hasAnyKey kvs ["front", "back", "question", "answer"] then
      .dict [("cards", .list [.dict kvs])]
    else
      match findListAlias kvs ["cards", "data", "items", "flashcards"] with
      | some l => .dict [("cards", .list l)]
      | Option.none => .dict [("cards", .list [])]
  | .list xs => .dict [("cards", .list xs)]
  | _ => .dict [("cards", .list [])]

/-- Modelled from the spec (section 4.1, step 1): the sniffing condition as
the specification states it, "the source hint indicates a known
automation-tool envelope, or the raw text contains structural fingerprints
of that envelope (a specific wrapper key name together with a markdown
code-fence marker)".  Used only to compare the spec's words with the
source's `_looks_like_n8n`. -/
def specEnvelopeSniff (raw_input : String) (source_hint : Option String) : Bool :=
  source_hint == some "n8n" ||
  (containsSub raw_input.data outputKey && containsSub raw_input.data ("```".data))

/-- Rendered message contributed by one strategy result. -/
def optErr (epfx : String) : Except PyErr PyVal → List String
  | .error e => [epfx ++ renderErr e]
  | .ok _ => []

/-- Messages of the strategies that raise, in attempt order, computed
directly from the individual strategy functions. -/
def raisedErrors (raw_input : String) (source_hint : Option String) : List String :=
  (if source_hint == some "n8n" || looks_like_n8n raw_input then
     optErr "n8n parsing: " (parse_n8n_format raw_input).2
   else []) ++
  optErr "Standard parsing: " (parse_standard raw_input) ++
  optErr "Deep unescape parsing: " (parse_with_deep_unescape raw_input) ++
  optErr "Cleanup parsing: " (parse_with_cleanup raw_input) ++
  optErr "Extraction parsing: " (parse_with_extraction raw_input) ++
  optErr "Repair parsing: " (parse_with_repair raw_input)

/-- Messages collected over a strategy list, independent of the cascade
runner. -/
def collectErrs : List StratEntry → List String
  | [] => []
  | (_, epfx, _, res) :: rest => optErr epfx res ++ collectErrs rest

/-- The claim C1 failing input: valid, minimally escaped JSON containing one
escaped quote inside a string value. -/
def c1Input : String := "\x7b\"a\": \"b\x5c\"c\"\x7d"

/-- The claim C2 pathological input: fifty backslashes before a quote, the
spec's own "50 levels of backslash-doubling" example. -/
def c2Input : String := String.mk (List.replicate 50 bsC ++ [qtC])

/-- The claim C3 counterexample input. -/
def c3Input : String := "\x7b]"

/-- The claim C4 counterexample input: valid JSON with a top-level `cards`
list that also carries an `output` field holding a markdown-fenced block. -/
def c4Input : String :=
  "\x7b\"cards\": [\x7b\"a\": 1\x7d], \"output\": \"```json\x7b\x5c\"cards\x5c\": [\x7b\x5c\"b\x5c\": 2\x7d]\x7d```\"\x7d"

/-- The claim C5 counterexample input: contains the wrapper key fingerprint
but no markdown code-fence marker. -/
def c5Input : String := "x \"output\" x"

/-- Witness envelope for C6: two wrappers with 2 and 3 cards. -/
def c6Input : String :=
  "[\x7b\"output\": \"```json\x5cn\x7b\x5c\"cards\x5c\": [\x7b\x5c\"f\x5c\": \x5c\"1\x5c\"\x7d, \x7b\x5c\"f\x5c\": \x5c\"2\x5c\"\x7d]\x7d\x5cn```\"\x7d, \x7b\"output\": \"```json\x5cn\x7b\x5c\"cards\x5c\": [\x7b\x5c\"f\x5c\": \x5c\"3\x5c\"\x7d, \x7b\x5c\"f\x5c\": \x5c\"4\x5c\"\x7d, \x7b\x5c\"f\x5c\": \x5c\"5\x5c\"\x7d]\x7d\x5cn```\"\x7d]"

/-- Witness envelope for C7: wrapper 1's fenced block has unbalanced braces,
wrapper 2 holds 3 cards. -/
def c7Input : String :=
  "[\x7b\"output\": \"```json\x5cn\x7b\x5c\"cards\x5c\": [\x7b\x5c\"f\x5c\": \x5c\"A\x5c\"\x7d\x5cn```\"\x7d, \x7b\"output\": \"```json\x5cn\x7b\x5c\"cards\x5c\": [\x7b\x5c\"f\x5c\": \x5c\"B\x5c\"\x7d, \x7b\x5c\"f\x5c\": \x5c\"C\x5c\"\x7d, \x7b\x5c\"f\x5c\": \x5c\"D\x5c\"\x7d]\x7d\x5cn```\"\x7d]"

/-- Is the value a Python list? -/
def isListB : PyVal → Bool
  | .list _ => true
  | _ => false

/-- Is the value a Python dict? -/
def isDictB : PyVal → Bool
  | .dict _ => true
  | _ => false

theorem containsSub_iff {hay pat : List Char} :
    containsSub hay pat = true ↔ pat <:+: hay := by
  induction hay with
  | nil =>
    simp [containsSub, List.isEmpty_iff, List.infix_nil]
  | cons h t ih =>
    rw [containsSub]
    simp only [Bool.or_eq_true, List.isPrefixOf_iff_prefix, ih, List.infix_cons_iff]

theorem containsSub_of_infix {l1 l2 pat : List Char} (h : l1 <:+: l2)
    (hc : containsSub l1 pat = true) : containsSub l2 pat = true :=
  containsSub_iff.2 ((containsSub_iff.1 hc).trans h)

theorem pyStrip_part_of (l : List Char) : pyStrip l <:+: l := by
  have h1 : l.dropWhile wsChar <:+ l := List.dropWhile_suffix wsChar
  have h2 : (l.dropWhile wsChar).reverse.dropWhile wsChar <:+
      (l.dropWhile wsChar).reverse := List.dropWhile_suffix wsChar
  have h3 : ((l.dropWhile wsChar).reverse.dropWhile wsChar).reverse <+:
      l.dropWhile wsChar := by
    rw [← List.reverse_suffix] at *
    simpa using h2
  exact (h3.isInfix).trans h1.isInfix

theorem take_pyStrip_part_of (l : List Char) (n : Nat) :
    (pyStrip l).take n <:+: l :=
  ((List.take_prefix n (pyStrip l)).isInfix).trans (pyStrip_part_of l)

theorem looks_like_n8n_eq (raw : String) :
    looks_like_n8n raw = containsSub raw.data outputKey := by
  unfold looks_like_n8n
  cases h : containsSub raw.data outputKey with
  | true => simp
  | false =>
    simp only [Bool.false_or]
    cases h2 : containsSub ((pyStrip raw.data).take 100) outputKey with
    | false => simp
    | true =>
      have h3 := containsSub_of_infix (take_pyStrip_part_of raw.data 100) h2
      rw [h] at h3
      exact absurd h3 (by simp)

theorem runStrategies_atts (strats : List StratEntry) (atts errs : List String) :
    ∃ t, (runStrategies strats atts errs).1 = atts ++ t := by
  induction strats generalizing atts errs with
  | nil => exact ⟨[], by simp [runStrategies]⟩
  | cons e rest ih =>
    obtain ⟨name, epfx, satts, res⟩ := e
    simp only [runStrategies]
    match res with
    | .ok v =>
      by_cases hv : pyIsNone v = true
      · simp only [hv, if_pos]
        obtain ⟨t, ht⟩ := ih (atts ++ satts) errs
        exact ⟨satts ++ t, by simpa [List.append_assoc] using ht⟩
      · simp only [Bool.not_eq_true] at hv
        simp only [hv]
        exact ⟨satts, rfl⟩
    | .error e2 =>
      obtain ⟨t, ht⟩ := ih (atts ++ satts) (errs ++ [epfx ++ renderErr e2])
      exact ⟨satts ++ t, by simpa [List.append_assoc] using ht⟩

theorem runStrategies_head (name epfx : String) (satts : List String)
    (res : Except PyErr PyVal) (rest : List StratEntry) (errs : List String) :
    ∃ t, (runStrategies ((name, epfx, satts, res) :: rest) [] errs).1 = satts ++ t := by
  simp only [runStrategies]
  match res with
  | .ok v =>
    by_cases hv : pyIsNone v = true
    · simp only [hv, if_pos]
      simpa using runStrategies_atts rest satts errs
    · simp only [Bool.not_eq_true] at hv
      simp only [hv]
      exact ⟨[], by simp⟩
  | .error e2 =>
    simpa using runStrategies_atts rest satts (errs ++ [epfx ++ renderErr e2])

theorem runStrategies_none_errs (strats : List StratEntry) :
    ∀ atts errs a e, runStrategies strats atts errs = (a, e, Option.none) →
      e = errs ++ collectErrs strats := by
  induction strats with
  | nil =>
    intro atts errs a e h
    simp [runStrategies] at h
    simp [collectErrs, h]
  | cons entry rest ih =>
    intro atts errs a e h
    obtain ⟨name, epfx, satts, res⟩ := entry
    simp only [runStrategies] at h
    match res with
    | .ok v =>
      by_cases hv : pyIsNone v = true
      · simp only [hv, if_pos] at h
        have := ih (atts ++ satts) errs a e h
        simpa [collectErrs, optErr] using this
      · simp only [Bool.not_eq_true] at hv
        simp only [hv] at h
        exact absurd (congrArg (fun x => x.2.2) h) (by simp)
    | .error e2 =>
      have := ih (atts ++ satts) (errs ++ [epfx ++ renderErr e2]) a e h
      simpa [collectErrs, optErr, List.append_assoc] using this

theorem runStrategies_some_name (strats : List StratEntry) :
    ∀ atts errs a e n v, runStrategies strats atts errs = (a, e, some (n, v)) →
      n ∈ strats.map (fun x => x.1) := by
  induction strats with
  | nil =>
    intro atts errs a e n v h
    simp [runStrategies] at h
  | cons entry rest ih =>
    intro atts errs a e n v h
    obtain ⟨name, epfx, satts, res⟩ := entry
    simp only [runStrategies] at h
    match res with
    | .ok v2 =>
      by_cases hv : pyIsNone v2 = true
      · simp only [hv, if_pos] at h
        exact List.mem_cons_of_mem _ (ih _ _ _ _ _ _ h)
      · simp only [Bool.not_eq_true] at hv
        simp only [hv, Bool.false_eq_true, if_false, Prod.mk.injEq,
          Option.some.injEq] at h
        simp [← h.2.2.1]
    | .error e2 =>
      exact List.mem_cons_of_mem _ (ih _ _ _ _ _ _ h)

theorem duLoop_le (fuel : Nat) : ∀ it c, (duLoop fuel it c).1 ≤ it + fuel := by
  induction fuel with
  | zero => intro it c; simp [duLoop]
  | succ f ih =>
    intro it c
    simp only [duLoop]
    split
    · simp
    · split
      · simp
      · split
        · split
          · simp
          · exact le_trans (ih _ _) (by omega)
        · split
          · simp
          · exact le_trans (ih _ _) (by omega)

theorem parse_atts (st : ParserState) (raw : String) (hint : Option String) :
    (parse st raw hint).1.parsing_attempts =
      (runStrategies (stratList raw hint) [] []).1 := by
  unfold parse
  rcases h : runStrategies (stratList raw hint) [] [] with ⟨atts, errs, opt⟩
  cases opt with
  | none => simp [h]
  | some p => obtain ⟨n, v⟩ := p; simp [h]

theorem parse_n8n_atts_head (raw : String) :
    ∃ t, (parse_n8n_format raw).1 = "n8n_triple_layer" :: t := by
  unfold parse_n8n_format
  rcases h : pyLoadsL (pyStrip raw.data) with e | outer
  · exact ⟨[], rfl⟩
  · rcases h2 : n8nItems (asOuterList outer) with ⟨atts, res⟩
    rcases res with e | cards
    · exact ⟨atts, by simp [h2]⟩
    · cases hc : cards.isEmpty
      · exact ⟨atts, by simp [h2, hc]⟩
      · exact ⟨atts, by simp [h2, hc]⟩

/-- C1.  Idempotence of the Deep Unescape Resolver on minimally escaped
input.  The claim fails on the code: on the valid, singly escaped input
`{"a": "b\"c"}` the loop body reaches the `elif '\\"' in content` branch of
line 138 and evaluates `self._is_valid_json`, an attribute
`FlexibleJSONParser` never defines, so the resolver raises `AttributeError`
instead of returning the decode of the unmodified text.  The first conjunct
shows the input is valid JSON (so it is in the claim's scope); the second
evaluates the resolver on it. -/
theorem c1_deep_unescape_attribute_error :
    pyLoads c1Input = .ok (.dict [("a", .str "b\"c")]) ∧
    parse_with_deep_unescape c1Input = .error .attrError := by
  constructor
  · rfl
  · rfl

/-- C2.  Bounded termination of the Deep Unescape Resolver.  The iteration
cap itself holds: the loop never runs more than 10 iterations on any input
(first conjunct).  But the claim that the strategy never raises fails on
the code: on the spec's own pathological input the escape-reduction shrinks
the backslash run to a single backslash before the quote after seven
iterations, the next pass reaches the undefined `self._is_valid_json` call,
and the strategy raises `AttributeError` (second conjunct) rather than
falling through to the substring scan. -/
theorem c2_deep_unescape_bounded_but_raises :
    (∀ s : String, deep_unescape_iterations s ≤ 10) ∧
    parse_with_deep_unescape c2Input = .error .attrError := by
  constructor
  · intro s
    simpa using duLoop_le 10 0 (pyStrip s.data)
  · rfl

/-- C10.  On the input `"null"` every strategy either decodes to `None` or
returns `None` without recording any error, so `parse` raises its
total-failure error with an empty reason list: the message is exactly
`"Failed to parse JSON. Errors: "`, all five non-envelope strategies were
attempted, and `last_strategy_used` is left untouched. -/
theorem c10_null_empty_error_aggregation :
    parse initState "null" Option.none =
      ({ last_strategy_used := Option.none,
         parsing_attempts := ["standard", "deep_unescape", "cleanup", "extraction", "repair"] },
       .error "Failed to parse JSON. Errors: ") := by
  rfl

theorem collectErrs_stratList (raw : String) (hint : Option String) :
    collectErrs (stratList raw hint) = raisedErrors raw hint := by
  unfold stratList raisedErrors
  cases h : (hint == some "n8n" || looks_like_n8n raw)
  · simp [collectErrs]
  · rcases h2 : parse_n8n_format raw with ⟨atts, res⟩
    simp [collectErrs, h2]

/-- C3 counterexample.  On the input `"{]"` every strategy fails and `parse`
raises, but the aggregated message carries only the reasons of the two
strategies that raised (`standard` and `cleanup`): the three other attempted
strategies (`deep_unescape`, `extraction`, `repair`) failed by returning
`None` and contribute nothing, so the claim that every attempted strategy
contributes its failure reason is false here. -/
theorem c3_counterexample :
    parse initState c3Input Option.none =
      ({ last_strategy_used := Option.none,
         parsing_attempts := ["standard", "deep_unescape", "cleanup", "extraction", "repair"] },
       .error ("Failed to parse JSON. Errors: " ++
         "Standard parsing: Expecting property name enclosed in double quotes; " ++
         "Cleanup parsing: Expecting property name enclosed in double quotes")) := by
  rfl

/-- C3 as amended.  When every strategy fails, the raised message is the
fixed prefix followed by the `"; "`-join of the reasons of exactly those
attempted strategies that raised an exception, in attempt order; strategies
that fail by returning `None` contribute no reason (`raisedErrors` is
computed directly from the individual strategy functions). -/
theorem c3_error_aggregates_raised_strategies (st : ParserState) (raw : String)
    (hint : Option String) (m : String)
    (h : (parse st raw hint).2 = .error m) :
    m = "Failed to parse JSON. Errors: " ++
      String.intercalate "; " (raisedErrors raw hint) := by
  unfold parse at h
  rcases hr : runStrategies (stratList raw hint) [] [] with ⟨atts, errs, opt⟩
  rw [hr] at h
  cases opt with
  | some p =>
    obtain ⟨n, v⟩ := p
    simp at h
  | none =>
    simp only [Except.error.injEq] at h
    have he := runStrategies_none_errs (stratList raw hint) [] [] atts errs hr
    rw [← h, he, collectErrs_stratList]
    simp

/-- Witness for C3: the amended aggregation law evaluated on the
counterexample input, where `standard` and `cleanup` raise and the other
three attempted strategies return `None`. -/
theorem c3_error_aggregates_witness :
    ("Failed to parse JSON. Errors: " ++
       "Standard parsing: Expecting property name enclosed in double quotes; " ++
       "Cleanup parsing: Expecting property name enclosed in double quotes") =
      "Failed to parse JSON. Errors: " ++
        String.intercalate "; " (raisedErrors c3Input Option.none) :=
  c3_error_aggregates_raised_strategies initState c3Input Option.none _ rfl

/-- C4 counterexample.  The input is valid JSON whose top level is a dict
with a `cards` list (first two conjuncts), yet `parse` does not return it
unchanged: the `"output"` fingerprint makes the envelope extractor run
first and succeed, so the result is the fenced block's cards and
`last_strategy_used` is `"n8n_triple_layer"`, not `"standard"`. -/
theorem c4_counterexample :
    pyLoads c4Input =
      .ok (.dict [("cards", .list [.dict [("a", .int 1)]]),
                  ("output", .str "```json\x7b\"cards\": [\x7b\"b\": 2\x7d]\x7d```")]) ∧
    pyDictGet [("cards", PyVal.list [.dict [("a", .int 1)]]),
               ("output", .str "```json\x7b\"cards\": [\x7b\"b\": 2\x7d]\x7d```")] "cards" =
      some (.list [.dict [("a", .int 1)]]) ∧
    parse initState c4Input Option.none =
      ({ last_strategy_used := some "n8n_triple_layer",
         parsing_attempts := ["n8n_triple_layer"] },
       .ok (.dict [("cards", .list [.dict [("b", .int 2)]])])) ∧
    (parse initState c4Input Option.none).1.last_strategy_used ≠ some "standard" := by
  refine ⟨rfl, rfl, rfl, ?_⟩
  intro h
  have h3 : (parse initState c4Input Option.none).1.last_strategy_used =
      some "n8n_triple_layer" := rfl
  rw [h3] at h
  simp at h

theorem runStrategies_first_success (name epfx : String) (satts : List String)
    (v : PyVal) (rest : List StratEntry) (atts errs : List String)
    (hs : pyIsNone v = false) :
    runStrategies ((name, epfx, satts, .ok v) :: rest) atts errs =
      (atts ++ satts, errs, some (name, v)) := by
  simp only [runStrategies, hs, Bool.false_eq_true, if_false]

/-- C4 as amended.  When the envelope extractor is not attempted at all —
the hint is not `"n8n"` and the raw text lacks the `'"output"'` fingerprint
— any input that strict-decodes to a dict with a top-level `cards` list is
returned unchanged by `parse` (cards included), with
`last_strategy_used = "standard"` and a single recorded attempt. -/
theorem c4_standard_path (raw : String) (hint : Option String)
    (kvs : List (String × PyVal)) (cs : List PyVal) (st : ParserState)
    (hhint : hint ≠ some "n8n")
    (hout : containsSub raw.data outputKey = false)
    (hload : pyLoads (pyStripS raw) = .ok (.dict kvs))
    (_hcards : pyDictGet kvs "cards" = some (.list cs)) :
    parse st raw hint =
      ({ st with last_strategy_used := some "standard",
                 parsing_attempts := ["standard"] },
       .ok (.dict kvs)) := by
  have hc : (hint == some "n8n" || looks_like_n8n raw) = false := by
    rw [looks_like_n8n_eq, hout]
    simp [hhint]
  unfold parse stratList
  rw [hc]
  simp only [Bool.false_eq_true, if_false, List.nil_append]
  simp only [parse_standard, hload]
  rw [runStrategies_first_success "standard" "Standard parsing: " ["standard"]
    (.dict kvs) _ _ _ rfl]
  simp

/-- Witness for C4 as amended, on a plain `{"cards": []}` input. -/
theorem c4_standard_path_witness :
    parse initState "\x7b\"cards\": []\x7d" Option.none =
      ({ initState with last_strategy_used := some "standard",
                        parsing_attempts := ["standard"] },
       .ok (.dict [("cards", .list [])])) :=
  c4_standard_path "\x7b\"cards\": []\x7d" Option.none [("cards", .list [])] []
    initState (by simp) rfl rfl rfl

/-- C5 counterexample.  On an input containing `'"output"'` but no backtick
fence, the envelope extractor is still attempted first (head of
`parsing_attempts`), while the spec's stated condition — wrapper key
together with a code-fence marker — is false: the sniff uses the wrapper
key alone. -/
theorem c5_counterexample :
    (parse initState c5Input Option.none).1.parsing_attempts.head? =
      some "n8n_triple_layer" ∧
    specEnvelopeSniff c5Input Option.none = false := by
  exact ⟨rfl, rfl⟩

/-- C5 as amended.  The envelope extractor is attempted first exactly when
the source hint is `"n8n"` or the raw text contains the wrapper key
`'"output"'` alone — the code-fence fingerprint is not required (and the
source's second sniff disjunct is subsumed by the substring test). -/
theorem c5_envelope_first_iff (st : ParserState) (raw : String) (hint : Option String) :
    (parse st raw hint).1.parsing_attempts.head? = some "n8n_triple_layer" ↔
      (hint = some "n8n" ∨ containsSub raw.data outputKey = true) := by
  rw [parse_atts]
  by_cases hc : (hint == some "n8n" || looks_like_n8n raw) = true
  · constructor
    · intro _
      rcases Bool.or_eq_true_iff.mp hc with h1 | h1
      · exact Or.inl (by simpa using h1)
      · exact Or.inr (by rw [← looks_like_n8n_eq]; exact h1)
    · intro _
      unfold stratList
      rw [if_pos hc]
      rcases hpn : parse_n8n_format raw with ⟨satts, res⟩
      obtain ⟨t1, ht1⟩ := parse_n8n_atts_head raw
      rw [hpn] at ht1
      simp only [List.cons_append]
      obtain ⟨t, ht⟩ := runStrategies_head "n8n_triple_layer" "n8n parsing: " satts res _ []
      simp only [] at ht1
      rw [ht, ht1]
      simp
  · have hcf : (hint == some "n8n" || looks_like_n8n raw) = false := by
      simpa using hc
    constructor
    · intro hh
      exfalso
      unfold stratList at hh
      rw [hcf] at hh
      simp only [Bool.false_eq_true, if_false, List.nil_append] at hh
      obtain ⟨t, ht⟩ := runStrategies_head "standard" "Standard parsing: "
        ["standard"] (parse_standard raw) _ []
      rw [ht] at hh
      simp at hh
    · intro hr
      exfalso
      rcases hr with h1 | h1
      · rw [h1] at hcf
        simp at hcf
      · rw [looks_like_n8n_eq, h1] at hcf
        simp at hcf

/-- C6.  Envelope flattening preserves count and order: for an outer list of
two wrapper objects whose `output` strings each contain exactly one fenced
block decoding to a dict with a `cards` list of 2 and 3 cards respectively,
`_parse_n8n_format` returns `{cards: c1 ++ c2}` — wrapper 1's cards first,
in their original relative order — with exactly 5 cards. -/
theorem c6_envelope_flattening (raw : String) (w1 w2 : List (String × PyVal))
    (o1 o2 : String) (b1 b2 : List Char) (kv1 kv2 : List (String × PyVal))
    (c1 c2 : List PyVal)
    (hload : pyLoadsL (pyStrip raw.data) = .ok (.list [.dict w1, .dict w2]))
    (ho1 : pyDictGet w1 "output" = some (.str o1)) (ho1ne : o1 ≠ "")
    (ho2 : pyDictGet w2 "output" = some (.str o2)) (ho2ne : o2 ≠ "")
    (hf1 : findJsonFences o1.data = [b1])
    (hf2 : findJsonFences o2.data = [b2])
    (hb1 : pyLoadsL b1 = .ok (.dict kv1))
    (hc1 : pyDictGet kv1 "cards" = some (.list c1))
    (hb2 : pyLoadsL b2 = .ok (.dict kv2))
    (hc2 : pyDictGet kv2 "cards" = some (.list c2))
    (hlen1 : c1.length = 2) (hlen2 : c2.length = 3) :
    (parse_n8n_format raw).2 = .ok (.dict [("cards", .list (c1 ++ c2))]) ∧
    (c1 ++ c2).length = 5 := by
  obtain ⟨x1, x2, rfl⟩ := List.length_eq_two.mp hlen1
  constructor
  · have ht1 : pyTruthy (PyVal.str o1) = true := by simp [pyTruthy, ho1ne]
    have ht2 : pyTruthy (PyVal.str o2) = true := by simp [pyTruthy, ho2ne]
    simp [parse_n8n_format, n8nItems, n8nHandleItem, processBlocks, n8nHandleBlock,
      cardsOf, asOuterList, pyDictGetD, hload, ho1, ho2, ht1, ht2, hf1, hf2, hb1, hb2,
      hc1, hc2]
  · simp [hlen2]

set_option maxRecDepth 8000 in
/-- Witness for C6 on the concrete two-wrapper envelope. -/
theorem c6_envelope_flattening_witness :
    (parse_n8n_format c6Input).2 =
      .ok (.dict [("cards", .list
        ([PyVal.dict [("f", PyVal.str "1")], PyVal.dict [("f", PyVal.str "2")]] ++
         [PyVal.dict [("f", PyVal.str "3")], PyVal.dict [("f", PyVal.str "4")],
          PyVal.dict [("f", PyVal.str "5")]]))]) ∧
    (([PyVal.dict [("f", PyVal.str "1")], PyVal.dict [("f", PyVal.str "2")]] ++
      [PyVal.dict [("f", PyVal.str "3")], PyVal.dict [("f", PyVal.str "4")],
       PyVal.dict [("f", PyVal.str "5")]]).length = 5) :=
  c6_envelope_flattening c6Input
    [("output", PyVal.str "```json\n\x7b\"cards\": [\x7b\"f\": \"1\"\x7d, \x7b\"f\": \"2\"\x7d]\x7d\n```")]
    [("output", PyVal.str "```json\n\x7b\"cards\": [\x7b\"f\": \"3\"\x7d, \x7b\"f\": \"4\"\x7d, \x7b\"f\": \"5\"\x7d]\x7d\n```")]
    "```json\n\x7b\"cards\": [\x7b\"f\": \"1\"\x7d, \x7b\"f\": \"2\"\x7d]\x7d\n```"
    "```json\n\x7b\"cards\": [\x7b\"f\": \"3\"\x7d, \x7b\"f\": \"4\"\x7d, \x7b\"f\": \"5\"\x7d]\x7d\n```"
    ("\x7b\"cards\": [\x7b\"f\": \"1\"\x7d, \x7b\"f\": \"2\"\x7d]\x7d".data)
    ("\x7b\"cards\": [\x7b\"f\": \"3\"\x7d, \x7b\"f\": \"4\"\x7d, \x7b\"f\": \"5\"\x7d]\x7d".data)
    [("cards", PyVal.list [PyVal.dict [("f", PyVal.str "1")], PyVal.dict [("f", PyVal.str "2")]])]
    [("cards", PyVal.list [PyVal.dict [("f", PyVal.str "3")], PyVal.dict [("f", PyVal.str "4")], PyVal.dict [("f", PyVal.str "5")]])]
    [PyVal.dict [("f", PyVal.str "1")], PyVal.dict [("f", PyVal.str "2")]]
    [PyVal.dict [("f", PyVal.str "3")], PyVal.dict [("f", PyVal.str "4")], PyVal.dict [("f", PyVal.str "5")]]
    rfl rfl (by simp) rfl (by simp) rfl rfl rfl rfl rfl rfl rfl rfl

/-- C7.  Partial-envelope recovery: in a two-wrapper envelope whose first
wrapper's single fenced block is unrecoverable (strict decode, the
deep-unescape retry, and the escape-reduction retry all fail, i.e.
`n8nHandleBlock` yields no value) while the second wrapper's block holds a
`cards` list of 3 cards, the extractor does not raise: it skips the
corrupted block and returns exactly wrapper 2's cards. -/
theorem c7_partial_envelope_recovery (raw : String) (w1 w2 : List (String × PyVal))
    (o1 o2 : String) (b1 b2 : List Char) (kv2 : List (String × PyVal))
    (c2 : List PyVal) (atts1 : List String)
    (hload : pyLoadsL (pyStrip raw.data) = .ok (.list [.dict w1, .dict w2]))
    (ho1 : pyDictGet w1 "output" = some (.str o1)) (ho1ne : o1 ≠ "")
    (ho2 : pyDictGet w2 "output" = some (.str o2)) (ho2ne : o2 ≠ "")
    (hf1 : findJsonFences o1.data = [b1])
    (hskip : n8nHandleBlock b1 = (atts1, Option.none))
    (hf2 : findJsonFences o2.data = [b2])
    (hb2 : pyLoadsL b2 = .ok (.dict kv2))
    (hc2 : pyDictGet kv2 "cards" = some (.list c2))
    (hlen2 : c2.length = 3) :
    (parse_n8n_format raw).2 = .ok (.dict [("cards", .list c2)]) := by
  obtain ⟨y1, y2, y3, rfl⟩ := List.length_eq_three.mp hlen2
  have ht1 : pyTruthy (PyVal.str o1) = true := by simp [pyTruthy, ho1ne]
  have ht2 : pyTruthy (PyVal.str o2) = true := by simp [pyTruthy, ho2ne]
  have hh2 : n8nHandleBlock b2 = ([], some (.dict kv2)) := by
    simp [n8nHandleBlock, hb2]
  simp [parse_n8n_format, n8nItems, n8nHandleItem, processBlocks, cardsOf,
    asOuterList, pyDictGetD, hload, ho1, ho2, ht1, ht2, hf1, hf2, hskip, hh2, hc2]

set_option maxRecDepth 8000 in
/-- Witness for C7 on the concrete corrupted two-wrapper envelope: the
corrupted block `{"cards": [{"f": "A"}` is skipped and wrapper 2's 3 cards
are returned. -/
theorem c7_partial_envelope_recovery_witness :
    (parse_n8n_format c7Input).2 =
      .ok (.dict [("cards", .list
        [PyVal.dict [("f", PyVal.str "B")], PyVal.dict [("f", PyVal.str "C")],
         PyVal.dict [("f", PyVal.str "D")]])]) :=
  c7_partial_envelope_recovery c7Input
    [("output", PyVal.str "```json\n\x7b\"cards\": [\x7b\"f\": \"A\"\x7d\n```")]
    [("output", PyVal.str "```json\n\x7b\"cards\": [\x7b\"f\": \"B\"\x7d, \x7b\"f\": \"C\"\x7d, \x7b\"f\": \"D\"\x7d]\x7d\n```")]
    "```json\n\x7b\"cards\": [\x7b\"f\": \"A\"\x7d\n```"
    "```json\n\x7b\"cards\": [\x7b\"f\": \"B\"\x7d, \x7b\"f\": \"C\"\x7d, \x7b\"f\": \"D\"\x7d]\x7d\n```"
    ("\x7b\"cards\": [\x7b\"f\": \"A\"\x7d".data)
    ("\x7b\"cards\": [\x7b\"f\": \"B\"\x7d, \x7b\"f\": \"C\"\x7d, \x7b\"f\": \"D\"\x7d]\x7d".data)
    [("cards", PyVal.list [PyVal.dict [("f", PyVal.str "B")], PyVal.dict [("f", PyVal.str "C")],
      PyVal.dict [("f", PyVal.str "D")]])]
    [PyVal.dict [("f", PyVal.str "B")], PyVal.dict [("f", PyVal.str "C")],
     PyVal.dict [("f", PyVal.str "D")]]
    ["deep_unescape"]
    rfl rfl (by simp) rfl (by simp) rfl rfl rfl rfl rfl rfl

/-- C8 counterexample.  The normalizer returns a mapping whose existing
`cards` key holds a non-list unchanged: on `{"cards": 5}` the first branch
of `_normalize_flashcard_structure` fires on mere key presence, so the
result's `cards` value is `5`, not a list, refuting the stated invariant. -/
theorem c8_counterexample :
    normalize_flashcard_structure (.dict [("cards", .int 5)]) =
      .dict [("cards", .int 5)] ∧
    pyDictGet [("cards", PyVal.int 5)] "cards" = some (.int 5) ∧
    isListB (.int 5) = false := by
  exact ⟨rfl, rfl, rfl⟩

/-- C8 as amended.  For every mapping or list, the normalizer returns a
mapping in which `cards` is present; its value is a list except in the one
case where the input mapping already carried a non-list `cards` value, in
which case the input is returned unchanged (first branch, key presence
only). -/
theorem c8_normalize_cards_key (data : PyVal)
    (h : isDictB data = true ∨ isListB data = true) :
    ∃ kvs, normalize_flashcard_structure data = .dict kvs ∧
      ∃ v, pyDictGet kvs "cards" = some v ∧
        (isListB v = true ∨
          (normalize_flashcard_structure data = data ∧ isListB v = false)) := by
  match data with
  | .dict kvs =>
    by_cases hk : (pyDictGet kvs "cards").isSome
    · obtain ⟨v, hv⟩ := Option.isSome_iff_exists.mp hk
      refine ⟨kvs, by simp [normalize_flashcard_structure, hk], v, hv, ?_⟩
      cases hl : isListB v
      · exact Or.inr ⟨by simp [normalize_flashcard_structure, hk], rfl⟩
      · exact Or.inl rfl
    · by_cases ha : hasAnyKey kvs ["front", "back", "question", "answer"] = true
      · exact ⟨[("cards", .list [.dict kvs])],
          by simp [normalize_flashcard_structure, hk, ha],
          .list [.dict kvs], rfl, Or.inl rfl⟩
      · match hfa : findListAlias kvs ["cards", "data", "items", "flashcards"] with
        | some l =>
          exact ⟨[("cards", .list l)],
            by simp [normalize_flashcard_structure, hk, ha, hfa],
            .list l, rfl, Or.inl rfl⟩
        | Option.none =>
          exact ⟨[("cards", .list [])],
            by simp [normalize_flashcard_structure, hk, ha, hfa],
            .list [], rfl, Or.inl rfl⟩
  | .list xs =>
    exact ⟨[("cards", .list xs)], rfl, .list xs, rfl, Or.inl rfl⟩
  | .none => simp [isDictB, isListB] at h
  | .bool b => simp [isDictB, isListB] at h
  | .int n => simp [isDictB, isListB] at h
  | .str s => simp [isDictB, isListB] at h

/-- Witness for C8 as amended, on the alias-shaped mapping
`{"data": [{"front": "Q", "back": "A"}]}`. -/
theorem c8_normalize_cards_key_witness :
    ∃ kvs, normalize_flashcard_structure
        (.dict [("data", .list [.dict [("front", .str "Q"), ("back", .str "A")]])]) =
        .dict kvs ∧
      ∃ v, pyDictGet kvs "cards" = some v ∧
        (isListB v = true ∨
          (normalize_flashcard_structure
              (.dict [("data", .list [.dict [("front", .str "Q"), ("back", .str "A")]])]) =
            .dict [("data", .list [.dict [("front", .str "Q"), ("back", .str "A")]])] ∧
           isListB v = false)) :=
  c8_normalize_cards_key
    (.dict [("data", .list [.dict [("front", .str "Q"), ("back", .str "A")]])])
    (Or.inl rfl)

/-- C9 counterexample.  `parse` does store per-call bookkeeping in instance
state: after one successful call on a fresh instance, `last_strategy_used`
has changed from `None` to `"standard"` and `parsing_attempts` from `[]` to
`["standard"]` — the fields of the parser object are not unchanged. -/
theorem c9_counterexample :
    (parse initState "\x7b\"cards\": []\x7d" Option.none).1.last_strategy_used ≠
      initState.last_strategy_used ∧
    (parse initState "\x7b\"cards\": []\x7d" Option.none).1.parsing_attempts ≠
      initState.parsing_attempts := by
  constructor
  · show some "standard" ≠ Option.none
    simp
  · show ["standard"] ≠ ([] : List String)
    simp

/-- C9 as amended.  `parse` records its per-call bookkeeping on the
instance: every successful call leaves `last_strategy_used` set to the name
of one of the six strategies and `parsing_attempts` non-empty, so the
fields persist on the object after the call rather than being local to
it. -/
theorem runStrategies_success_atts_ne_nil (strats : List StratEntry) :
    ∀ atts0 errs atts errs2 p, (∀ e ∈ strats, e.2.2.1 ≠ []) →
      runStrategies strats atts0 errs = (atts, errs2, some p) → atts ≠ [] := by
  induction strats with
  | nil =>
    intro atts0 errs atts errs2 p hne h
    simp [runStrategies] at h
  | cons entry rest ih =>
    intro atts0 errs atts errs2 p hne h
    obtain ⟨name, epfx, satts, res⟩ := entry
    have hs : satts ≠ [] := hne _ (List.mem_cons_self _ _)
    simp only [runStrategies] at h
    match res with
    | .ok v =>
      by_cases hv : pyIsNone v = true
      · simp only [hv, if_pos] at h
        exact ih _ _ _ _ _ (fun e he => hne e (List.mem_cons_of_mem _ he)) h
      · simp only [Bool.not_eq_true] at hv
        simp only [hv, Bool.false_eq_true, if_false, Prod.mk.injEq] at h
        rw [← h.1]
        simp [hs]
    | .error e2 =>
      exact ih _ _ _ _ _ (fun e he => hne e (List.mem_cons_of_mem _ he)) h

theorem stratList_satts_ne_nil (raw : String) (hint : Option String) :
    ∀ e ∈ stratList raw hint, e.2.2.1 ≠ [] := by
  intro e he
  unfold stratList at he
  by_cases hc : (hint == some "n8n" || looks_like_n8n raw) = true
  · rw [if_pos hc] at he
    rcases hpn : parse_n8n_format raw with ⟨satts, res⟩
    rw [hpn] at he
    obtain ⟨t1, ht1⟩ := parse_n8n_atts_head raw
    rw [hpn] at ht1
    simp only [] at ht1
    simp at he
    rcases he with h1 | h1 | h1 | h1 | h1 | h1 <;> simp [h1, ht1]
  · rw [if_neg hc] at he
    simp at he
    rcases he with h1 | h1 | h1 | h1 | h1 <;> simp [h1]

/-- C9 as amended.  `parse` records its per-call bookkeeping on the
instance: every successful call leaves `last_strategy_used` set to the name
of one of the six strategies and `parsing_attempts` non-empty, so the
fields persist on the object after the call rather than being local to
it. -/
theorem c9_parse_mutates_state (st : ParserState) (raw : String)
    (hint : Option String) (v : PyVal)
    (h : (parse st raw hint).2 = .ok v) :
    (∃ n, (parse st raw hint).1.last_strategy_used = some n ∧
       n ∈ ["n8n_triple_layer", "standard", "deep_unescape", "cleanup",
            "extraction", "repair"]) ∧
    (parse st raw hint).1.parsing_attempts ≠ [] := by
  unfold parse at h ⊢
  rcases hr : runStrategies (stratList raw hint) [] [] with ⟨atts, errs, opt⟩
  rw [hr] at h
  cases opt with
  | none => exact Except.noConfusion h
  | some p =>
    obtain ⟨n, v2⟩ := p
    refine ⟨⟨n, rfl, ?_⟩, ?_⟩
    · have hmem := runStrategies_some_name (stratList raw hint) [] [] atts errs n v2 hr
      have hsub : (stratList raw hint).map (fun x => x.1) ⊆
          ["n8n_triple_layer", "standard", "deep_unescape", "cleanup",
           "extraction", "repair"] := by
        unfold stratList
        by_cases hc : (hint == some "n8n" || looks_like_n8n raw) = true
        · rw [if_pos hc]
          rcases hpn : parse_n8n_format raw with ⟨satts, res⟩
          intro x hx
          simp at hx
          rcases hx with h1 | h1 | h1 | h1 | h1 | h1 <;> simp [h1]
        · rw [if_neg hc]
          intro x hx
          simp at hx
          rcases hx with h1 | h1 | h1 | h1 | h1 <;> simp [h1]
      exact hsub hmem
    · show atts ≠ []
      exact runStrategies_success_atts_ne_nil (stratList raw hint) [] [] atts errs
        (n, v2) (stratList_satts_ne_nil raw hint) hr

/-- Witness for C9 as amended, on a successful standard-strategy call. -/
theorem c9_parse_mutates_state_witness :
    (∃ n, (parse initState "\x7b\"cards\": []\x7d" Option.none).1.last_strategy_used =
        some n ∧
       n ∈ ["n8n_triple_layer", "standard", "deep_unescape", "cleanup",
            "extraction", "repair"]) ∧
    (parse initState "\x7b\"cards\": []\x7d" Option.none).1.parsing_attempts ≠ [] :=
  c9_parse_mutates_state initState "\x7b\"cards\": []\x7d" Option.none
    (.dict [("cards", .list [])]) rfl
